import Mathlib

/-!
# LexicalGem — shallow embedding and verification

A shallow embedding of the core logic of the LexicalGem Telegram bot
(`src/services/WordService.js`, `src/services/UserService.js`,
`src/utils/Validator.js`, `src/bot/BotManager.js`, `src/bot/CommandHandler.js`,
`src/utils/Constants.js`), together with theorems settling the frozen claims.

Modelling conventions:
- JS numbers that hold integers are modelled as `Nat`/`Int`; timestamps are
  milliseconds since the epoch as `Nat`.
- A JS `Set` of strings is modelled as a duplicate-free insertion-ordered
  `List String` with explicit `setHas`/`setAdd` operations.
- A JS `Map` keyed by user id is modelled as an association list
  `List (Int × UserData)` with lookup and replace-or-append update.
- `Math.random()` draws are modelled by an oracle `r : Nat`; the selected
  index `Math.floor(Math.random() * len)` ranges over `[0, len)`, which is
  modelled as `r % len` (every index is realised by some `r`, and every `r`
  yields a realisable index).
- A JS value that may be `null`/`undefined` is an `Option`; a thrown JS
  exception is the `Except.error` case.
-/

namespace LexicalGem

/-- A word entry: `{ word, definition, emoji }` as used throughout the bot. -/
structure Word where
  word : String
  definition : String
  emoji : String
deriving DecidableEq, Repr

/-- JS whitespace characters recognised by `String.prototype.trim`
(model of the builtin; the ASCII whitespace that can occur in word files). -/
def isJsWhitespace (c : Char) : Bool :=
  c = ' ' ∨ c = '\t' ∨ c = '\n' ∨ c = '\r'

/-- Model of the JS builtin `String.prototype.trim`: drop leading and
trailing whitespace. -/
def jsTrim (s : String) : String :=
  ⟨((s.data.dropWhile isJsWhitespace).reverse.dropWhile isJsWhitespace).reverse⟩

/-- A raw JSON entry as seen by `Validator.isValidWord`: each field is
present as a string or not (`none` models a missing field or a non-string). -/
structure RawEntry where
  word : Option String
  definition : Option String
  emoji : Option String
deriving DecidableEq, Repr

/-- `Validator.isValidWord` (src/utils/Validator.js:7–18): every field must be
a string that is non-empty after trimming. -/
def isValidWord (e : RawEntry) : Bool :=
  match e.word, e.definition, e.emoji with
  | some w, some d, some m =>
      (jsTrim w).length > 0 ∧ (jsTrim d).length > 0 ∧ (jsTrim m).length > 0
  | _, _, _ => false

/-- The word object kept for a valid raw entry (fields are kept untrimmed,
exactly as `validWords.push(word)` keeps the original object). -/
def rawToWord (e : RawEntry) : Word :=
  ⟨e.word.getD "", e.definition.getD "", e.emoji.getD ""⟩

/-- `Validator.validateWordsArray` (src/utils/Validator.js:25–50), restricted
to its `validWords` output: the sublist of entries passing `isValidWord`. -/
def validWordsOf (entries : List RawEntry) : List Word :=
  (entries.filter isValidWord).map rawToWord

/-- `Constants.FALLBACK_WORDS` (src/utils/Constants.js). -/
def FALLBACK_WORDS : List Word :=
  [ ⟨"Serendipity", "The occurrence of fortunate and unexpected discoveries by chance.", "🧠"⟩,
    ⟨"Peregrine", "Uncommon, strange, or wandering.", "📘"⟩,
    ⟨"Ineffable", "Too great or beautiful to be expressed in words.", "🎭"⟩ ]

/-! ## JS `Set` of strings, as an insertion-ordered duplicate-free list -/

/-- `Set.prototype.has`. -/
def setHas (s : List String) (x : String) : Bool := s.contains x

/-- `Set.prototype.add`: no-op when present, else append. -/
def setAdd (s : List String) (x : String) : List String :=
  if setHas s x then s else s ++ [x]

/-! ## WordService state (src/services/WordService.js) -/

/-- The request-statistics substructure of `WordService` (`this.stats`;
load timing fields are kept as counters, dates as millisecond instants). -/
structure WSStats where
  totalRequests : Nat
  uniqueUsers : List Int
  loadAttempts : Nat
deriving DecidableEq, Repr

/-- The mutable state of a `WordService` instance. -/
structure WordServiceState where
  words : List Word
  usedWords : List String
  stats : WSStats
  isInitialized : Bool
deriving DecidableEq, Repr

/-- The state built by the `WordService` constructor. -/
def initialWordServiceState : WordServiceState :=
  { words := [], usedWords := [], stats := ⟨0, [], 0⟩, isInitialized := false }

/-- `WordService.resetCycle` (src/services/WordService.js:196–199):
clears `usedWords`. -/
def resetCycle (s : WordServiceState) : WordServiceState :=
  { s with usedWords := [] }

/-- `WordService.getRandomWord` (src/services/WordService.js:101–133).
Returns `null` when uninitialized or the word list is empty; resets the
cycle when every word has been used; then draws uniformly from the words
whose text is not in `usedWords` and marks the drawn word used.
The random draw is the oracle `r`. -/
def getRandomWord (s : WordServiceState) (r : Nat) : Option Word × WordServiceState :=
  if s.isInitialized = false ∨ s.words.length = 0 then (none, s)
  else
    let s1 := if s.words.length ≤ s.usedWords.length then resetCycle s else s
    let availableWords := s1.words.filter (fun w => !(setHas s1.usedWords w.word))
    match availableWords.get? (r % availableWords.length) with
    | none => (none, s1)
    | some selectedWord =>
        (some selectedWord,
         { s1 with usedWords := setAdd s1.usedWords selectedWord.word })

/-- `Math.round((used / total) * 100)` over JS numbers: when `total = 0` the
division is `0/0 = NaN` (or `±Infinity`), and so is the rounded result —
modelled as `none`.  For `total ≠ 0` the value is non-negative and
`Math.round` is round-half-up: `⌊100*used/total + 1/2⌋ = (200*used + total) / (2*total)`
in natural-number division. -/
def jsRoundPercent (used total : Nat) : Option Nat :=
  if total = 0 then none else some ((200 * used + total) / (2 * total))

/-- The fields of the object returned by `WordService.getStats`
(src/services/WordService.js:139–155) that the claims speak about. -/
structure WordStats where
  totalWords : Nat
  usedWords : Nat
  remainingWords : Int
  cycleProgress : Option Nat
  totalRequests : Nat
  uniqueUsers : Nat
  isInitialized : Bool
deriving DecidableEq, Repr

/-- `WordService.getStats` (src/services/WordService.js:139–155), uptime and
load-time bookkeeping omitted. -/
def getStats (s : WordServiceState) : WordStats :=
  { totalWords := s.words.length
    usedWords := s.usedWords.length
    remainingWords := (s.words.length : Int) - (s.usedWords.length : Int)
    cycleProgress := jsRoundPercent s.usedWords.length s.words.length
    totalRequests := s.stats.totalRequests
    uniqueUsers := s.stats.uniqueUsers.length
    isInitialized := s.isInitialized }

/-- The outcome of reading and parsing the word-source file: either a parsed
JSON array of raw entries, a parsed JSON value that is not an array, or an
I/O / parse exception (unreadable or unparseable source). -/
inductive LoadInput where
  | parsed (entries : List RawEntry)
  | notAnArray
  | ioError
deriving DecidableEq, Repr

/-- `WordService.loadFallbackWords` (src/services/WordService.js:92–95). -/
def loadFallbackWords (s : WordServiceState) : WordServiceState :=
  { s with words := FALLBACK_WORDS }

/-- `WordService.loadWords` (src/services/WordService.js:49–87).  On a
readable, parseable source the valid entries become the word list (fallback
substituted when none are valid) and the result is `true`; when reading or
parsing throws, the catch block loads the fallback words and returns `false`.
A parsed non-array yields `validWords = []` hence also the fallback, with
result `true`. -/
def loadWords (s : WordServiceState) (input : LoadInput) : Bool × WordServiceState :=
  let s0 := { s with stats := { s.stats with loadAttempts := s.stats.loadAttempts + 1 } }
  match input with
  | .ioError => (false, loadFallbackWords s0)
  | .notAnArray =>
      let s1 := { s0 with words := [] }
      (true, if s1.words.length = 0 then loadFallbackWords s1 else s1)
  | .parsed entries =>
      let s1 := { s0 with words := validWordsOf entries }
      (true, if s1.words.length = 0 then loadFallbackWords s1 else s1)

/-- `WordService.initialize` (src/services/WordService.js:26–43): runs
`loadWords` and marks the service initialized only when it succeeded. -/
def initWordService (s : WordServiceState) (input : LoadInput) : Bool × WordServiceState :=
  let res := loadWords s input
  if res.fst then (true, { res.snd with isInitialized := true }) else res

/-- `WordService.isReady` (src/services/WordService.js:227–229). -/
def isReady (s : WordServiceState) : Bool :=
  s.isInitialized ∧ s.words.length > 0

/-- `BotManager.initializeServices` (src/bot/BotManager.js:92–104): creates a
fresh `WordService`, initializes it, and throws
`Error('Failed to initialize WordService')` when initialization reported
failure. -/
def initializeServices (input : LoadInput) : Except String WordServiceState :=
  let res := initWordService initialWordServiceState input
  if res.fst then .ok res.snd else .error "Failed to initialize WordService"

/-- `WordService.reloadWords` (src/services/WordService.js:205–209): resets
the cycle, then reloads from the source. -/
def reloadWords (s : WordServiceState) (input : LoadInput) : Bool × WordServiceState :=
  loadWords (resetCycle s) input

/-! ## Validator.isValidUserId -/

/-- `Validator.isValidUserId` (src/utils/Validator.js:72–75) on an
integer-valued JS number: `parseInt` returns the integer itself, which is
valid exactly when positive. -/
def isValidUserId (userId : Int) : Bool := 0 < userId

/-! ## UserService state (src/services/UserService.js) -/

/-- A history entry built by `UserService.addToHistory`
(src/services/UserService.js:47–53). -/
structure HistoryEntry where
  word : String
  definition : String
  emoji : String
  timestamp : Nat
  difficulty : String
deriving DecidableEq, Repr

/-- The selection preferences in a user's profile (unused by the logic but
part of the stored shape). -/
structure Preferences where
  categories : List String
  wordLength : String
deriving DecidableEq, Repr

/-- The `stats` substructure of a user's profile. -/
structure UserStats where
  totalWords : Nat
  streak : Nat
  lastUsed : Option Nat
deriving DecidableEq, Repr

/-- A user profile as created by `UserService.getUserData`
(src/services/UserService.js:16–34). -/
structure UserData where
  id : Int
  history : List HistoryEntry
  difficulty : String
  preferences : Preferences
  stats : UserStats
deriving DecidableEq, Repr

/-- The fresh profile stored on first access to a user id. -/
def defaultUserData (userId : Int) : UserData :=
  { id := userId
    history := []
    difficulty := "medium"
    preferences := { categories := [], wordLength := "any" }
    stats := { totalWords := 0, streak := 0, lastUsed := none } }

/-- `Map.prototype.set` on the users map: replace the binding when the key is
present, else append (JS maps keep insertion order). -/
def mapSet (users : List (Int × UserData)) (k : Int) (v : UserData) :
    List (Int × UserData) :=
  match users with
  | [] => [(k, v)]
  | (k', v') :: rest =>
      if k' = k then (k, v) :: rest else (k', v') :: mapSet rest k v

/-- `Map.prototype.get` on the users map. -/
def mapGet (users : List (Int × UserData)) (k : Int) : Option UserData :=
  match users with
  | [] => none
  | (k', v') :: rest => if k' = k then some v' else mapGet rest k

/-- The mutable state of the single `UserService` instance owned by
`CommandHandler`. -/
structure UserServiceState where
  users : List (Int × UserData)
  wordOfTheDay : Option Word
  wordOfTheDayDate : Option String
deriving DecidableEq, Repr

/-- The state built by the `UserService` constructor. -/
def initialUserServiceState : UserServiceState :=
  { users := [], wordOfTheDay := none, wordOfTheDayDate := none }

/-- `UserService.getUserData` (src/services/UserService.js:16–34): lazily
creates the default profile; returns the profile together with the users map
after the possible insertion. -/
def getUserData (users : List (Int × UserData)) (userId : Int) :
    UserData × List (Int × UserData) :=
  match mapGet users userId with
  | some u => (u, users)
  | none =>
      let u := defaultUserData userId
      (u, mapSet users userId u)

/-- `UserService.calculateWordDifficulty` (src/services/UserService.js:173–180). -/
def calculateWordDifficulty (w : Word) : String :=
  if w.word.length ≤ 6 ∧ w.definition.length ≤ 100 then "easy"
  else if w.word.length ≤ 10 ∧ w.definition.length ≤ 150 then "medium"
  else "hard"

/-- Milliseconds per day, the divisor `1000 * 60 * 60 * 24`. -/
def msPerDay : Nat := 1000 * 60 * 60 * 24

/-- `UserService.updateStreak` (src/services/UserService.js:186–207), acting
on the `stats` substructure: reads `stats.lastUsed` at call time and applies
the daysDiff rule (`Math.floor` of a real division is flooring integer
division `Int.fdiv`). -/
def updateStreak (now : Nat) (stats : UserStats) : UserStats :=
  match stats.lastUsed with
  | none => { stats with streak := 1 }
  | some lastUsed =>
      let daysDiff := ((now : Int) - (lastUsed : Int)).fdiv (msPerDay : Int)
      if daysDiff = 0 then stats
      else if daysDiff = 1 then { stats with streak := stats.streak + 1 }
      else { stats with streak := 1 }

/-- The history entry built by `UserService.addToHistory`
(src/services/UserService.js:47–53) for word `w` at time `now`. -/
def mkHistoryEntry (w : Word) (now : Nat) : HistoryEntry :=
  { word := w.word
    definition := w.definition
    emoji := w.emoji
    timestamp := now
    difficulty := calculateWordDifficulty w }

/-- `UserService.addToHistory` (src/services/UserService.js:41–73), with the
current time `now` passed explicitly for every `new Date()` taken during the
call.  Mirrors the source order: guard on user id and word, build the entry,
unshift and cap the history at 50, increment `totalWords`, set
`stats.lastUsed = now`, and only then call `updateStreak` on the already
updated stats. -/
def addToHistory (st : UserServiceState) (userId : Int) (word : Option Word)
    (now : Nat) : UserServiceState :=
  if isValidUserId userId = false ∨ word = none then st
  else
    match word with
    | none => st
    | some w =>
        let p := getUserData st.users userId
        let userData := p.fst
        let hist1 := mkHistoryEntry w now :: userData.history
        let hist2 := if hist1.length > 50 then hist1.take 50 else hist1
        let stats1 := { userData.stats with
                          totalWords := userData.stats.totalWords + 1
                          lastUsed := some now }
        let stats2 := updateStreak now stats1
        { st with users :=
            mapSet p.snd userId { userData with history := hist2, stats := stats2 } }

/-- `UserService.getHistory` (src/services/UserService.js:83–90): empty for an
invalid user id, else the first `limit` entries of the (lazily created)
profile's history. -/
def getHistory (st : UserServiceState) (userId : Int) (limit : Nat) :
    List HistoryEntry :=
  if isValidUserId userId = false then []
  else ((getUserData st.users userId).fst.history).take limit

/-- A thrown JS runtime error (here only the `TypeError` raised by reading a
property of `undefined`). -/
inductive JsError where
  | typeError
deriving DecidableEq, Repr

/-- `UserService.getWordOfTheDay` (src/services/UserService.js:122–138).
The process-local calendar date string `today` and the random draw `r` are
explicit inputs.  Cache hit (`wordOfTheDayDate === today` and a truthy cached
word): return the cache unchanged.  Otherwise regenerate:
`words[Math.floor(Math.random() * words.length)]`; on an empty list this is
`undefined`, the cache fields are still assigned, and the subsequent
`this.wordOfTheDay.word` read in the log call throws a `TypeError`. -/
def getWordOfTheDay (st : UserServiceState) (today : String) (r : Nat)
    (words : List Word) : Except JsError Word × UserServiceState :=
  match st.wordOfTheDay, decide (st.wordOfTheDayDate = some today) with
  | some w, true => (.ok w, st)
  | _, _ =>
      match words.get? (r % words.length) with
      | some w =>
          (.ok w, { st with wordOfTheDay := some w, wordOfTheDayDate := some today })
      | none =>
          (.error .typeError,
           { st with wordOfTheDay := none, wordOfTheDayDate := some today })

/-- `UserService.getRandomWord` (src/services/UserService.js:145–148): a
uniform pick ignoring the cycle; on an empty list `words[0]` is `undefined`,
modelled as `none`. -/
def userGetRandomWord (words : List Word) (r : Nat) : Option Word :=
  words.get? (r % words.length)

/-! ## Command dispatch (src/bot/CommandHandler.js, src/bot/BotManager.js) -/

/-- `Object.values(Constants.COMMANDS)` (src/utils/Constants.js), in source
order. -/
def COMMANDS : List String :=
  ["/start", "/word", "/stats", "/help", "/wordoftheday", "/history",
   "/random", "/difficulty", "/share"]

/-- Model of the JS builtin `String.prototype.startsWith`. -/
def jsStartsWith (text pre : String) : Bool :=
  pre.data.isPrefixOf text.data

/-- `CommandHandler.registerCommand` (src/bot/CommandHandler.js:39–56)
registers each handler on the regex `^<escaped command>$`: anchored at both
ends on the regex-escaped literal, it matches a message text exactly when the
text equals the command string. -/
def handlerFires (command text : String) : Bool := text = command

/-- The routing decision of `BotManager.handleMessage`
(src/bot/BotManager.js:170–186): texts that are falsy (empty) or arriving
during shutdown are dropped; a text is treated as a command when it starts
with any registered command string; only non-commands go to
`handleUnknownCommand`. -/
def routedToUnknown (text : String) (isShuttingDown : Bool) : Bool :=
  if text = "" ∨ isShuttingDown then false
  else !(COMMANDS.any (fun cmd => jsStartsWith text cmd))

/-- The leading whitespace-delimited token of a message text (the spec's
"leading token"). -/
def leadingToken (text : String) : String :=
  ⟨text.data.takeWhile (fun c => c ≠ ' ')⟩

/-! ## Derived notions used by the claims -/

/-- The catalog-state invariant of the spec: every used key is the text of
some word in the active sequence. -/
def UsedKeysInv (s : WordServiceState) : Prop :=
  ∀ k ∈ s.usedWords, k ∈ s.words.map Word.word

/-- Record a sequence of words (each with its interaction time) for one user,
by repeated `addToHistory`. -/
def recordMany (st : UserServiceState) (userId : Int) (ws : List (Word × Nat)) :
    UserServiceState :=
  ws.foldl (fun s p => addToHistory s userId (some p.fst) p.snd) st

/-- The stored history of a user (after lazily creating the profile), i.e.
the full most-recent-first sequence that `getHistory` truncates. -/
def userHistory (st : UserServiceState) (userId : Int) : List HistoryEntry :=
  (getUserData st.users userId).fst.history

/-- The spec's rounding, written from the spec's words: `percentUsed =
round(100 * used / total)` as exact rational rounding (for comparison with
the `jsRoundPercent` computed by the code). -/
def specPercentUsed (used total : Nat) : ℤ :=
  round ((100 * used : ℚ) / (total : ℚ))

/-! ## Theorems for the claims -/

/-- The natural-number division computed by the code agrees with the spec's
`round(100 * used / total)` whenever `total ≠ 0`. -/
theorem jsRoundPercent_eq_round (u t : Nat) (ht : t ≠ 0) :
    (((200 * u + t) / (2 * t) : ℕ) : ℤ) = specPercentUsed u t := by
  have htq : (t : ℚ) ≠ 0 := Nat.cast_ne_zero.mpr ht
  have h1 : (100 * u : ℚ) / t + 1 / 2 = ((200 * u + t : ℕ) : ℚ) / ((2 * t : ℕ) : ℚ) := by
    push_cast
    field_simp
    ring
  rw [specPercentUsed, round_eq, h1, ← Nat.floor_div_eq_div (α := ℚ)]
  exact Int.natCast_floor_eq_floor (by positivity)

/-- C2 (code_bug): `addToHistory` sets `stats.lastUsed = now` *before*
`updateStreak` reads it, so `updateStreak` always sees the freshly written
timestamp, computes `daysDiff = 0`, and never changes the streak.  On the
first-ever interaction the streak stays `0` (the claim says `1`), and a
second interaction exactly one day later still leaves it at `0` (the claim
says it would be incremented). -/
theorem c2_streak_never_updated :
    (userHistory (addToHistory initialUserServiceState 1
        (some ⟨"Serendipity", "x", "e"⟩) 1000) 1).length = 1 ∧
    (getUserData (addToHistory initialUserServiceState 1
        (some ⟨"Serendipity", "x", "e"⟩) 1000).users 1).fst.stats.streak = 0 ∧
    (getUserData (addToHistory initialUserServiceState 1
        (some ⟨"Serendipity", "x", "e"⟩) 1000).users 1).fst.stats.lastUsed
      = some 1000 ∧
    (getUserData (addToHistory
        (addToHistory initialUserServiceState 1
          (some ⟨"Serendipity", "x", "e"⟩) 1000) 1
        (some ⟨"Peregrine", "y", "e"⟩) (1000 + msPerDay)).users 1).fst.stats.streak
      = 0 := by
  decide

/-- C3 counterexample: on the empty word set (the freshly constructed
service) `cycleProgress` is the JS value `NaN` (modelled `none`), not `0`. -/
theorem c3_progress_empty_not_zero :
    (getStats initialWordServiceState).totalWords = 0 ∧
    (getStats initialWordServiceState).cycleProgress ≠ some 0 ∧
    (getStats initialWordServiceState).cycleProgress = none := by
  decide

/-- C3 (amended): for a non-empty word sequence `cycleProgress` is
`round(100 * used / total)`; for an empty sequence it is `NaN` (`none`),
not `0`. -/
theorem c3_cycle_progress_rounding (s : WordServiceState) :
    (s.words.length = 0 → (getStats s).cycleProgress = none) ∧
    (s.words.length ≠ 0 → ∃ n : Nat, (getStats s).cycleProgress = some n ∧
      (n : ℤ) = specPercentUsed s.usedWords.length s.words.length) := by
  constructor
  · intro h
    simp [getStats, jsRoundPercent, h]
  · intro h
    refine ⟨(200 * s.usedWords.length + s.words.length) / (2 * s.words.length), ?_, ?_⟩
    · simp [getStats, jsRoundPercent, h]
    · exact jsRoundPercent_eq_round _ _ h

/-- Witness for `c3_cycle_progress_rounding` at a concrete state: fallback
words loaded, one word used — `cycleProgress = 33 = round(100/3)`. -/
theorem c3_cycle_progress_rounding_witness :
    ∃ n : Nat,
      (getStats { words := FALLBACK_WORDS, usedWords := ["Serendipity"],
                  stats := ⟨0, [], 1⟩, isInitialized := true }).cycleProgress = some n ∧
      (n : ℤ) = specPercentUsed 1 3 :=
  (c3_cycle_progress_rounding
    { words := FALLBACK_WORDS, usedWords := ["Serendipity"],
      stats := ⟨0, [], 1⟩, isInitialized := true }).2 (by decide)

/-- C5 (code_bug): when the word source is unreadable or unparseable,
`loadWords`'s catch block does activate the fallback word set but returns
`false`; `initialize` therefore leaves `isInitialized = false` (so the
service is not ready and `getRandomWord` refuses to serve), and
`BotManager.initializeServices` throws, failing startup instead of
succeeding. -/
theorem c5_load_error_fails_startup :
    initWordService initialWordServiceState .ioError
      = (false, { words := FALLBACK_WORDS, usedWords := [],
                  stats := ⟨0, [], 1⟩, isInitialized := false }) ∧
    isReady (initWordService initialWordServiceState .ioError).snd = false ∧
    initializeServices .ioError = .error "Failed to initialize WordService" :=
  ⟨by decide, by decide, rfl⟩

/-- C10: `addToHistory` with a non-positive user id or an absent word is a
no-op: the whole user-service state (profiles, history, counters, streaks,
timestamps) is returned unchanged. -/
theorem c10_addToHistory_noop (st : UserServiceState) (userId : Int)
    (word : Option Word) (now : Nat) (h : ¬ 0 < userId ∨ word = none) :
    addToHistory st userId word now = st := by
  unfold addToHistory
  rcases h with h | h
  · rw [if_pos (Or.inl (by simp [isValidUserId, h]))]
  · rw [if_pos (Or.inr h)]

/-- Indexing a non-empty list at `r % length` always yields some member. -/
theorem get_mod_mem {α : Type} (l : List α) (r : Nat) (h : l ≠ []) :
    ∃ w ∈ l, l.get? (r % l.length) = some w := by
  have hl : 0 < l.length := List.length_pos.mpr h
  have hm : r % l.length < l.length := Nat.mod_lt _ hl
  exact ⟨l.get ⟨r % l.length, hm⟩, l.get_mem _ _, List.get?_eq_get hm⟩

/-- When there is no valid same-day cache, `getWordOfTheDay` regenerates. -/
theorem getWordOfTheDay_regen (st : UserServiceState) (today : String) (r : Nat)
    (words : List Word)
    (h : st.wordOfTheDayDate ≠ some today ∨ st.wordOfTheDay = none) :
    getWordOfTheDay st today r words =
      match words.get? (r % words.length) with
      | some w =>
          (.ok w, { st with wordOfTheDay := some w, wordOfTheDayDate := some today })
      | none =>
          (.error .typeError,
           { st with wordOfTheDay := none, wordOfTheDayDate := some today }) := by
  unfold getWordOfTheDay
  rcases hw : st.wordOfTheDay with _ | w0
  · rcases decide (st.wordOfTheDayDate = some today) <;> rfl
  · have hd : st.wordOfTheDayDate ≠ some today := by
      rcases h with h | h
      · exact h
      · rw [hw] at h
        exact absurd h (by simp)
    rw [decide_eq_false hd]

/-- A valid same-day cache is returned unchanged by `getWordOfTheDay`. -/
theorem getWordOfTheDay_cache_hit (st : UserServiceState) (today : String)
    (r : Nat) (words : List Word) (w0 : Word) (hw : st.wordOfTheDay = some w0)
    (hd : st.wordOfTheDayDate = some today) :
    getWordOfTheDay st today r words = (.ok w0, st) := by
  unfold getWordOfTheDay
  rw [hw, decide_eq_true hd]

/-- C4 counterexample: on an empty word list, `UserService.getRandomWord`
returns `undefined` (absent) rather than failing with any error, and
`UserService.getWordOfTheDay` (with no same-day cache) throws a `TypeError`
from dereferencing `undefined` — no `EmptyCatalog` error exists in the
code. -/
theorem c4_empty_catalog_no_emptycatalog_error :
    userGetRandomWord [] 0 = none ∧
    (getWordOfTheDay initialUserServiceState "Mon Oct 06 2025" 0 []).fst
      = .error .typeError :=
  ⟨rfl, rfl⟩

/-- C4 (amended): on an empty word list `independentRandom` yields absent
(`undefined`, not an error) and `wordOfDay`, when it regenerates, throws a
`TypeError`; on a non-empty list `independentRandom` returns a word from the
list, `wordOfDay` returns a word from the list when regenerating, and a valid
same-day cache is returned as-is. -/
theorem c4_empty_and_nonempty_behaviour (words : List Word) (r : Nat)
    (st : UserServiceState) (today : String) :
    (words = [] → userGetRandomWord words r = none) ∧
    (words ≠ [] → ∃ w ∈ words, userGetRandomWord words r = some w) ∧
    ((st.wordOfTheDayDate ≠ some today ∨ st.wordOfTheDay = none) →
      (words = [] → (getWordOfTheDay st today r words).fst = .error .typeError) ∧
      (words ≠ [] → ∃ w ∈ words, (getWordOfTheDay st today r words).fst = .ok w)) ∧
    (∀ w0, st.wordOfTheDay = some w0 → st.wordOfTheDayDate = some today →
      (getWordOfTheDay st today r words).fst = .ok w0) := by
  refine ⟨?_, ?_, ?_, ?_⟩
  · rintro rfl
    rfl
  · intro h
    exact get_mod_mem words r h
  · intro hcache
    constructor
    · rintro rfl
      rw [getWordOfTheDay_regen _ _ _ _ hcache]
      simp
    · intro h
      obtain ⟨w, hw, hget⟩ := get_mod_mem words r h
      refine ⟨w, hw, ?_⟩
      rw [getWordOfTheDay_regen _ _ _ _ hcache, hget]
  · intro w0 hw hd
    rw [getWordOfTheDay_cache_hit _ _ _ _ _ hw hd]

/-- Witness for `c4_empty_and_nonempty_behaviour`: on the fallback word list
the independent random pick returns a member. -/
theorem c4_empty_and_nonempty_behaviour_witness :
    ∃ w ∈ FALLBACK_WORDS, userGetRandomWord FALLBACK_WORDS 1 = some w :=
  (c4_empty_and_nonempty_behaviour FALLBACK_WORDS 1 initialUserServiceState
    "Mon Oct 06 2025").2.1 (by decide)

/-- C6 counterexample: the message `"/wordx"` has leading token `"/wordx"`,
which equals no registered command, yet `handleMessage` does not route it to
the unknown-command handler (it starts with `"/word"`), and no registered
handler fires either — while a genuinely non-command text is routed. -/
theorem c6_prefix_text_dropped :
    (∀ c ∈ COMMANDS, leadingToken "/wordx" ≠ c) ∧
    routedToUnknown "/wordx" false = false ∧
    (∀ c ∈ COMMANDS, handlerFires c "/wordx" = false) ∧
    routedToUnknown "hello" false = true := by
  decide

/-- C6 (amended): registered handlers are exact-match (the anchored regex
fires exactly on text equality), but the catch-all routing is prefix-based:
a non-empty message outside shutdown is routed to the unknown-command
handler iff its text starts with no registered command; consequently a text
that starts with a command without equalling any registered command
triggers nothing at all. -/
theorem c6_exact_handlers_prefix_unknown_routing (text : String)
    (shuttingDown : Bool) :
    (∀ c ∈ COMMANDS, (handlerFires c text = true ↔ text = c)) ∧
    (routedToUnknown text shuttingDown = true ↔
      (text ≠ "" ∧ shuttingDown = false ∧
        ∀ c ∈ COMMANDS, jsStartsWith text c = false)) ∧
    ((∃ c ∈ COMMANDS, jsStartsWith text c = true) → text ∉ COMMANDS →
      routedToUnknown text shuttingDown = false ∧
      ∀ c ∈ COMMANDS, handlerFires c text = false) := by
  refine ⟨?_, ?_, ?_⟩
  · intro c _
    simp [handlerFires]
  · simp only [routedToUnknown]
    by_cases hguard : text = "" ∨ shuttingDown = true
    · rw [if_pos (by tauto)]
      constructor
      · intro h
        exact absurd h (by simp)
      · rintro ⟨h1, h2, _⟩
        rcases hguard with h | h
        · exact absurd h h1
        · rw [h] at h2
          exact absurd h2 (by simp)
    · push_neg at hguard
      rw [if_neg (by simpa [Bool.not_eq_true] using hguard)]
      simp only [Bool.not_eq_true', List.any_eq_false]
      constructor
      · intro h
        exact ⟨hguard.1, by simpa using hguard.2,
          fun c hc => by simpa using h c hc⟩
      · rintro ⟨_, _, h⟩
        intro c hc
        simpa using h c hc
  · rintro ⟨c, hc, hstart⟩ hnotin
    constructor
    · simp only [routedToUnknown]
      split
      · rfl
      · simp only [Bool.not_eq_false', List.any_eq_true]
        exact ⟨c, hc, hstart⟩
    · intro c' hc'
      have : text ≠ c' := fun h => hnotin (h ▸ hc')
      simp [handlerFires, this]

/-- Witness for `c6_exact_handlers_prefix_unknown_routing`: the exact text
`"/wordoftheday"` fires its handler. -/
theorem c6_exact_handlers_witness :
    handlerFires "/wordoftheday" "/wordoftheday" = true :=
  ((c6_exact_handlers_prefix_unknown_routing "/wordoftheday" false).1
    "/wordoftheday" (by decide)).mpr rfl

/-- C9: with a non-empty word list, two `getWordOfTheDay` calls with the same
calendar-date string return the identical word (the second call returns the
cache and leaves the state unchanged); and a valid same-day cache means no
new word is chosen at all. -/
theorem c9_word_of_day_stable_same_date (st : UserServiceState) (today : String)
    (r1 r2 : Nat) (words : List Word) (h : words ≠ []) :
    (∃ w : Word,
      (getWordOfTheDay st today r1 words).fst = .ok w ∧
      (getWordOfTheDay (getWordOfTheDay st today r1 words).snd today r2 words).fst
        = .ok w ∧
      (getWordOfTheDay (getWordOfTheDay st today r1 words).snd today r2 words).snd
        = (getWordOfTheDay st today r1 words).snd) ∧
    (∀ w0, st.wordOfTheDay = some w0 → st.wordOfTheDayDate = some today →
      getWordOfTheDay st today r1 words = (.ok w0, st)) := by
  constructor
  · by_cases hd : st.wordOfTheDayDate = some today
    · rcases hw : st.wordOfTheDay with _ | w0
      · obtain ⟨w, _, hget⟩ := get_mod_mem words r1 h
        have h1 := getWordOfTheDay_regen st today r1 words (Or.inr hw)
        rw [hget] at h1
        refine ⟨w, by rw [h1], ?_, ?_⟩ <;>
          rw [h1, getWordOfTheDay_cache_hit _ _ _ _ w rfl rfl]
      · have h1 := getWordOfTheDay_cache_hit st today r1 words w0 hw hd
        refine ⟨w0, by rw [h1], ?_, ?_⟩ <;>
          rw [h1, getWordOfTheDay_cache_hit _ _ _ _ w0 hw hd]
    · obtain ⟨w, _, hget⟩ := get_mod_mem words r1 h
      have h1 := getWordOfTheDay_regen st today r1 words (Or.inl hd)
      rw [hget] at h1
      refine ⟨w, by rw [h1], ?_, ?_⟩ <;>
        rw [h1, getWordOfTheDay_cache_hit _ _ _ _ w rfl rfl]
  · intro w0 hw hd
    exact getWordOfTheDay_cache_hit st today r1 words w0 hw hd

/-- Witness for `c9_word_of_day_stable_same_date`: fallback words, fresh
state, same date string on both calls. -/
theorem c9_word_of_day_stable_witness :
    ∃ w : Word,
      (getWordOfTheDay initialUserServiceState "Mon Oct 06 2025" 0
          FALLBACK_WORDS).fst = .ok w ∧
      (getWordOfTheDay
          (getWordOfTheDay initialUserServiceState "Mon Oct 06 2025" 0
            FALLBACK_WORDS).snd "Mon Oct 06 2025" 5 FALLBACK_WORDS).fst
        = .ok w ∧
      (getWordOfTheDay
          (getWordOfTheDay initialUserServiceState "Mon Oct 06 2025" 0
            FALLBACK_WORDS).snd "Mon Oct 06 2025" 5 FALLBACK_WORDS).snd
        = (getWordOfTheDay initialUserServiceState "Mon Oct 06 2025" 0
            FALLBACK_WORDS).snd :=
  (c9_word_of_day_stable_same_date initialUserServiceState "Mon Oct 06 2025"
    0 5 FALLBACK_WORDS (by decide)).1

/-- Witness for `c10_addToHistory_noop`: user id `-3` (and, separately, an
absent word) leave the fresh state untouched. -/
theorem c10_addToHistory_noop_witness :
    addToHistory initialUserServiceState (-3) (some ⟨"a", "b", "c"⟩) 5
        = initialUserServiceState ∧
    addToHistory initialUserServiceState 7 none 5 = initialUserServiceState :=
  ⟨c10_addToHistory_noop _ _ _ _ (Or.inl (by decide)),
   c10_addToHistory_noop _ _ _ _ (Or.inr rfl)⟩

/-! ### The no-repeat selector (claims C1 and C7) -/

/-- A member of a set-as-list after `setAdd` was already a member or is the
added key. -/
theorem mem_setAdd {l : List String} {x k : String} (h : k ∈ setAdd l x) :
    k ∈ l ∨ k = x := by
  unfold setAdd at h
  split at h
  · exact Or.inl h
  · rcases List.mem_append.mp h with h | h
    · exact Or.inl h
    · exact Or.inr (List.mem_singleton.mp h)

/-- `getRandomWord` refuses (returns `null` and leaves the state alone) when
the service is uninitialized or has no words. -/
theorem getRandomWord_guard (s : WordServiceState) (r : Nat)
    (h : s.isInitialized = false ∨ s.words = []) :
    getRandomWord s r = (none, s) := by
  unfold getRandomWord
  rw [if_pos]
  rcases h with h | h
  · exact Or.inl h
  · exact Or.inr (by simp [h])

/-- Characterisation of a successful `getRandomWord` call: when the service
is initialized, has words, and the word texts are pairwise distinct, the
call returns a word of the sequence; below the cycle boundary the word is
fresh and is recorded, at the boundary the used-set is cleared first and the
returned word becomes its only member. -/
theorem getRandomWord_success (s : WordServiceState) (r : Nat)
    (hinit : s.isInitialized = true) (hne : s.words ≠ [])
    (hnodup : (s.words.map Word.word).Nodup) :
    ∃ w, (getRandomWord s r).fst = some w ∧ w ∈ s.words ∧
      (s.usedWords.length < s.words.length →
        setHas s.usedWords w.word = false ∧
        (getRandomWord s r).snd = { s with usedWords := setAdd s.usedWords w.word }) ∧
      (s.words.length ≤ s.usedWords.length →
        (getRandomWord s r).snd = { s with usedWords := [w.word] }) := by
  have hguard : ¬ (s.isInitialized = false ∨ s.words.length = 0) := by
    simp [hinit, hne]
  by_cases hreset : s.words.length ≤ s.usedWords.length
  · -- cycle reset: the used-set is cleared, every word is available
    have havail : (resetCycle s).words.filter
        (fun w => !(setHas (resetCycle s).usedWords w.word)) = s.words := by
      simp [resetCycle, setHas]
    obtain ⟨w, hwmem, hget⟩ := get_mod_mem s.words r hne
    have heq : getRandomWord s r = (some w, { s with usedWords := [w.word] }) := by
      unfold getRandomWord
      rw [if_neg hguard]
      simp only [if_pos hreset, havail, hget]
      simp [resetCycle, setAdd, setHas]
    refine ⟨w, by rw [heq], hwmem, ?_, ?_⟩
    · intro hlt
      exact absurd hlt (not_lt.mpr hreset)
    · intro _
      rw [heq]
  · -- no reset: some word text is missing from the used-set
    push_neg at hreset
    have havailne : s.words.filter (fun w => !(setHas s.usedWords w.word)) ≠ [] := by
      intro hav
      have hsub : s.words.map Word.word ⊆ s.usedWords := by
        intro k hk
        obtain ⟨w, hw, rfl⟩ := List.mem_map.mp hk
        by_cases hhas : setHas s.usedWords w.word = true
        · simpa [setHas] using hhas
        · have : w ∈ s.words.filter (fun w => !(setHas s.usedWords w.word)) :=
            List.mem_filter.mpr ⟨hw, by simp [Bool.not_eq_true] at hhas ⊢; exact hhas⟩
          rw [hav] at this
          exact absurd this (List.not_mem_nil w)
      have : (s.words.map Word.word).length ≤ s.usedWords.length :=
        (hnodup.subperm hsub).length_le
      rw [List.length_map] at this
      omega
    obtain ⟨w, hwmem, hget⟩ :=
      get_mod_mem (s.words.filter (fun w => !(setHas s.usedWords w.word))) r havailne
    have hwords : w ∈ s.words := (List.mem_filter.mp hwmem).1
    have hfresh : setHas s.usedWords w.word = false := by
      have := (List.mem_filter.mp hwmem).2
      simpa using this
    have heq : getRandomWord s r
        = (some w, { s with usedWords := setAdd s.usedWords w.word }) := by
      unfold getRandomWord
      rw [if_neg hguard]
      simp only [if_neg (not_le.mpr hreset), hget]
    refine ⟨w, by rw [heq], hwords, ?_, ?_⟩
    · intro _
      exact ⟨hfresh, by rw [heq]⟩
    · intro hle
      exact absurd hreset (not_lt.mpr hle)

/-- C1 counterexample: two reachable states with a non-empty word sequence on
which the selector returns `null`: (a) after a failed source load the
fallback words are active but `isInitialized` is still `false`, so every call
returns `null`; (b) an initialized catalog whose two entries share the same
text exhausts after one selection and the next call returns `null` without
any reset. -/
theorem c1_null_on_nonempty_sequence :
    ((initWordService initialWordServiceState .ioError).snd.words ≠ [] ∧
     (getRandomWord (initWordService initialWordServiceState .ioError).snd 0).fst
       = none) ∧
    (let s0 := (initWordService initialWordServiceState
        (.parsed [⟨some "Abc", some "d", some "e"⟩,
                  ⟨some "Abc", some "d", some "e"⟩])).snd
     let s1 := (getRandomWord s0 0).snd
     s1.isInitialized = true ∧ s1.words ≠ [] ∧ s1.usedWords = ["Abc"] ∧
       (getRandomWord s1 0).fst = none) := by
  decide

/-- C1 (amended): over states whose word texts are pairwise distinct, the
selector returns `null` exactly when the service is uninitialized or the
sequence is empty; a returned word always comes from the sequence, is never
a word whose text is already used when no reset occurs (strictly below the
cycle boundary), and at the boundary the call clears the used-set first and
then succeeds, leaving exactly the returned word marked used. -/
theorem c1_no_repeat_until_reset (s : WordServiceState) (r : Nat)
    (hnodup : (s.words.map Word.word).Nodup) :
    ((getRandomWord s r).fst = none ↔
      (s.isInitialized = false ∨ s.words = [])) ∧
    (∀ w, (getRandomWord s r).fst = some w →
      w ∈ s.words ∧
      (s.usedWords.length < s.words.length →
        setHas s.usedWords w.word = false ∧
        (getRandomWord s r).snd = { s with usedWords := setAdd s.usedWords w.word }) ∧
      (s.words.length ≤ s.usedWords.length →
        (getRandomWord s r).snd = { s with usedWords := [w.word] })) := by
  by_cases hg : s.isInitialized = false ∨ s.words = []
  · rw [getRandomWord_guard s r hg]
    exact ⟨iff_of_true rfl hg, fun w hw => absurd hw (by simp)⟩
  · push_neg at hg
    obtain ⟨hinit0, hne⟩ := hg
    have hinit : s.isInitialized = true := by simpa using hinit0
    obtain ⟨w, hw, hmem, hlt, hle⟩ := getRandomWord_success s r hinit hne hnodup
    constructor
    · rw [hw]
      simp [hinit, hne]
    · intro w' hw'
      rw [hw] at hw'
      obtain rfl := Option.some_injective _ hw'.symm
      exact ⟨hmem, hlt, hle⟩

/-- Witness for `c1_no_repeat_until_reset` on the reachable state produced by
initializing from a parseable-but-invalid source (fallback set active,
service initialized): the selector does not return `null`. -/
theorem c1_no_repeat_until_reset_witness :
    (getRandomWord (initWordService initialWordServiceState .notAnArray).snd 0).fst
        = none ↔
      ((initWordService initialWordServiceState .notAnArray).snd.isInitialized
          = false ∨
        (initWordService initialWordServiceState .notAnArray).snd.words = []) :=
  (c1_no_repeat_until_reset
    (initWordService initialWordServiceState .notAnArray).snd 0 (by decide)).1

/-- `loadWords` never touches the used-set. -/
theorem loadWords_usedWords (s : WordServiceState) (input : LoadInput) :
    (loadWords s input).snd.usedWords = s.usedWords := by
  cases input <;> simp only [loadWords, loadFallbackWords] <;>
    first
      | rfl
      | (split <;> rfl)

/-- `loadWords` leaves words unchanged or replaces them; together with the
prior reset this keeps `reloadWords` stale-free. -/
theorem reloadWords_usedWords (s : WordServiceState) (input : LoadInput) :
    (reloadWords s input).snd.usedWords = [] := by
  rw [reloadWords, loadWords_usedWords]
  rfl

/-- C7: the invariant `usedKeys ⊆ {w.text : w ∈ words}` is preserved by every
operation on the selector state: selection only records the text of a word
drawn from the active sequence (clearing first at the cycle boundary), the
manual cycle reset clears the set, and a reload resets the used-set before
replacing the sequence so no stale key survives. -/
theorem c7_used_keys_invariant (s : WordServiceState) (r : Nat)
    (input : LoadInput) (h : UsedKeysInv s) :
    UsedKeysInv (getRandomWord s r).snd ∧
    UsedKeysInv (resetCycle s) ∧
    UsedKeysInv (reloadWords s input).snd := by
  refine ⟨?_, ?_, ?_⟩
  · -- selection
    unfold getRandomWord
    split
    · exact h
    · dsimp only
      set t := if s.words.length ≤ s.usedWords.length then resetCycle s else s with ht
      have hinv : UsedKeysInv t := by
        rw [ht]
        split
        · intro k hk
          exact absurd hk (List.not_mem_nil k)
        · exact h
      split
      · exact hinv
      · rename_i w hget
        dsimp only
        intro k hk
        rcases mem_setAdd hk with hk | rfl
        · exact hinv k hk
        · have hwmem : w ∈ t.words := (List.mem_filter.mp (List.get?_mem hget)).1
          exact List.mem_map.mpr ⟨w, hwmem, rfl⟩
  · intro k hk
    exact absurd hk (List.not_mem_nil k)
  · intro k hk
    rw [reloadWords_usedWords] at hk
    exact absurd hk (List.not_mem_nil k)

/-- Witness for `c7_used_keys_invariant` at a concrete state satisfying the
invariant: the fallback catalog with one used key. -/
theorem c7_used_keys_invariant_witness :
    UsedKeysInv (getRandomWord
      { words := FALLBACK_WORDS, usedWords := ["Peregrine"],
        stats := ⟨0, [], 1⟩, isInitialized := true } 4).snd :=
  (c7_used_keys_invariant
    { words := FALLBACK_WORDS, usedWords := ["Peregrine"],
      stats := ⟨0, [], 1⟩, isInitialized := true } 4 .ioError
    (by intro k hk; fin_cases hk; simp [FALLBACK_WORDS])).1

/-! ### History cap and ordering (claim C8) -/

/-- Looking up a key just set returns the set value. -/
theorem mapGet_mapSet (users : List (Int × UserData)) (k : Int) (v : UserData) :
    mapGet (mapSet users k v) k = some v := by
  induction users with
  | nil => simp [mapSet, mapGet]
  | cons p rest ih =>
      obtain ⟨k', v'⟩ := p
      by_cases h : k' = k
      · simp [mapSet, mapGet, h]
      · simp [mapSet, mapGet, h, ih]

/-- The source's conditional truncation is plain `take 50`. -/
theorem cap_eq_take {α : Type} (l : List α) :
    (if l.length > 50 then l.take 50 else l) = l.take 50 := by
  split
  · rfl
  · rw [List.take_of_length_le (by omega)]

/-- Prepending to a capped list and recapping ignores the earlier cap. -/
theorem take_append_take {α : Type} (A B : List α) (n : Nat) :
    (A ++ B.take n).take n = (A ++ B).take n := by
  rw [List.take_append_eq_append_take, List.take_append_eq_append_take,
    List.take_take, Nat.min_eq_left (Nat.sub_le n A.length)]

/-- One `addToHistory` call on a valid user id prepends the new entry and
caps the stored history at 50. -/
theorem userHistory_addToHistory (st : UserServiceState) (userId : Int)
    (w : Word) (now : Nat) (h : isValidUserId userId = true) :
    userHistory (addToHistory st userId (some w) now) userId
      = (mkHistoryEntry w now :: userHistory st userId).take 50 := by
  unfold addToHistory
  rw [if_neg (by simp [h])]
  dsimp only
  unfold userHistory getUserData
  rw [mapGet_mapSet]
  dsimp only
  exact cap_eq_take _

/-- Recording a sequence of words yields, as stored history, the
most-recent-first entries capped at 50 on top of the prior history. -/
theorem recordMany_userHistory (userId : Int) (h : isValidUserId userId = true)
    (ws : List (Word × Nat)) (st : UserServiceState)
    (hlen : (userHistory st userId).length ≤ 50) :
    userHistory (recordMany st userId ws) userId
      = ((ws.map fun p => mkHistoryEntry p.fst p.snd).reverse
          ++ userHistory st userId).take 50 := by
  induction ws generalizing st with
  | nil =>
      simp only [recordMany, List.foldl_nil, List.map_nil, List.reverse_nil,
        List.nil_append]
      rw [List.take_of_length_le hlen]
  | cons p ws ih =>
      have hstep := userHistory_addToHistory st userId p.fst p.snd h
      have hlen' :
          (userHistory (addToHistory st userId (some p.fst) p.snd) userId).length
            ≤ 50 := by
        rw [hstep, List.length_take]
        omega
      have hrec :
          recordMany st userId (p :: ws)
            = recordMany (addToHistory st userId (some p.fst) p.snd) userId ws := rfl
      rw [hrec, ih _ hlen', hstep, List.map_cons, List.reverse_cons,
        List.append_assoc, take_append_take]
      rfl

/-- C8: per-user history is capped at 50 entries and ordered
most-recent-first.  After recording any 60 words from a fresh store,
`getHistory userId 1000` is exactly the last 50 recorded entries, newest
first (its head is the most recently recorded word), and for every limit
`getHistory` returns the first `limit` entries of the stored order. -/
theorem c8_history_capped_most_recent_first (userId : Int)
    (ws : List (Word × Nat)) (limit : Nat)
    (hv : isValidUserId userId = true) (hlen : ws.length = 60) :
    (getHistory (recordMany initialUserServiceState userId ws) userId 1000).length
        = 50 ∧
    getHistory (recordMany initialUserServiceState userId ws) userId 1000
        = ((ws.map fun p => mkHistoryEntry p.fst p.snd).reverse).take 50 ∧
    (∀ p, ws.getLast? = some p →
      (getHistory (recordMany initialUserServiceState userId ws) userId 1000).head?
        = some (mkHistoryEntry p.fst p.snd)) ∧
    getHistory (recordMany initialUserServiceState userId ws) userId limit
        = (userHistory (recordMany initialUserServiceState userId ws) userId).take
            limit := by
  have hinit : userHistory initialUserServiceState userId = [] := rfl
  have hrec := recordMany_userHistory userId hv ws initialUserServiceState
    (by rw [hinit]; simp)
  rw [hinit, List.append_nil] at hrec
  have hrevlen : ((ws.map fun p => mkHistoryEntry p.fst p.snd).reverse).length = 60 := by
    rw [List.length_reverse, List.length_map, hlen]
  have hgh : getHistory (recordMany initialUserServiceState userId ws) userId 1000
      = ((ws.map fun p => mkHistoryEntry p.fst p.snd).reverse).take 50 := by
    unfold getHistory
    rw [if_neg (by simp [hv])]
    show (userHistory (recordMany initialUserServiceState userId ws) userId).take 1000
      = _
    rw [hrec, List.take_take]
    norm_num
  refine ⟨?_, hgh, ?_, ?_⟩
  · rw [hgh, List.length_take, hrevlen]
    omega
  · intro p hp
    rw [hgh]
    have hne : (ws.map fun p => mkHistoryEntry p.fst p.snd).reverse ≠ [] := by
      intro hcon
      rw [← List.length_eq_zero, hrevlen] at hcon
      exact absurd hcon (by omega)
    obtain ⟨a, t, hat⟩ := List.exists_cons_of_ne_nil hne
    have hhead : ((ws.map fun p => mkHistoryEntry p.fst p.snd).reverse).head?
        = some (mkHistoryEntry p.fst p.snd) := by
      rw [List.head?_reverse, List.getLast?_map, hp]
      rfl
    rw [hat] at hhead ⊢
    rw [List.take_succ_cons, List.head?_cons] at *
    exact hhead
  · unfold getHistory
    rw [if_neg (by simp [hv])]
    rfl

/-- Witness for `c8_history_capped_most_recent_first`: sixty concrete
recordings leave exactly 50 stored entries. -/
theorem c8_history_capped_witness :
    (getHistory (recordMany initialUserServiceState 1
        ((List.range 60).map fun i => (⟨"Word", "def", "e"⟩, i))) 1 1000).length
      = 50 :=
  (c8_history_capped_most_recent_first 1
    ((List.range 60).map fun i => (⟨"Word", "def", "e"⟩, i)) 7 (by decide)
    (by simp)).1

end LexicalGem
